import Mathlib

/-!
Verification of the container push command (`artifactory/commands/container/push.go`).

The Go file implements `PushCommand.Run`: after a container engine pushes an
image, the command optionally collects build info and/or produces a detailed
summary (a transfer manifest of the pushed layers).  External collaborators
(engine, repository service, build-info persistence, temp-file serialization)
are modelled as an oracle environment `Env`; each external call that a claim
talks about is additionally recorded in an event trace, in call order.
-/

namespace ContainerPush

/-- Go errors are modelled by their message string. -/
abbrev GoError := String

deriving instance DecidableEq for Except

/-- containerutils.ContainerManagerType: the engine driving the push. -/
inductive ContainerManagerType where
  | dockerClient
  | podman
deriving DecidableEq, Repr

/-- servicesutils.Property: one key/value property of a repository item. -/
structure Property where
  key : String
  value : String
deriving DecidableEq, Repr

/-- servicesutils.ResultItem: a resolved repository layer record. -/
structure ResultItem where
  repo : String
  path : String
  name : String
  properties : List Property
deriving DecidableEq, Repr

/-- clientutils.FileTransferDetails: one record of the transfer manifest. -/
structure FileTransferDetails where
  targetPath : String
  rtUrl : String
  sha256 : String
deriving DecidableEq, Repr

/-- commandsutils.Result: the push result handed back to the CLI layer.
`reader` models the content reader (temp file name and record kind). -/
structure Result where
  reader : Option (String × String)
  successCount : Nat
deriving DecidableEq, Repr

/-- config.ServerDetails (only the field this file reads). -/
structure ServerDetails where
  artifactoryUrl : String
deriving DecidableEq, Repr

/-- The PushCommand receiver state.  `ServerDetails()` in this file returns
`pc.serverDetails` with a nil error, so the server details are part of the
command state rather than an oracle. -/
structure PushCommand where
  containerManagerType : ContainerManagerType
  image : String
  threads : Int
  detailedSummary : Bool
  validateSha : Bool
  buildModule : String
  serverDetails : ServerDetails
  result : Option Result
deriving DecidableEq, Repr

/-- External calls recorded by the model, in the order `Run` performs them. -/
inductive Event where
  | login
  | enginePush
  | engineIdQuery
  | newRemoteBuilder (imageSha256 : String)
  | newLocalBuilder
  | saveBuildGeneralDetails
  | remoteBuild (moduleName : String)
  | localBuild (moduleName : String)
  | setSkipTaggingLayers (skip : Bool)
  | saveBuildInfo
  | saveTransferDetails
deriving DecidableEq, Repr

/-- Resolver Build invocations (a repository resolution pass). -/
def Event.isBuild : Event → Bool
  | .remoteBuild _ => true
  | .localBuild _ => true
  | _ => false

/-- Construction of either build-info builder (resolver instance). -/
def Event.isNewBuilder : Event → Bool
  | .newRemoteBuilder _ => true
  | .newLocalBuilder => true
  | _ => false

/-- Events belonging to the tag-based (local agent) resolver strategy. -/
def Event.isTagStrategy : Event → Bool
  | .newLocalBuilder => true
  | .localBuild _ => true
  | .setSkipTaggingLayers _ => true
  | _ => false

/-- Events belonging to the digest-based (remote agent) resolver strategy,
including the engine digest query that feeds it. -/
def Event.isDigestStrategy : Event → Bool
  | .engineIdQuery => true
  | .newRemoteBuilder _ => true
  | .remoteBuild _ => true
  | _ => false

/-- Skip-tagging toggle events. -/
def Event.isSetSkip : Event → Bool
  | .setSkipTaggingLayers _ => true
  | _ => false

/-- Oracle outcomes of every external call `Run` makes.  A builder's `Build`
returns a module pointer and an error; `Except GoError (Option Unit)` keeps
the Go possibility of a nil module together with a nil error.  `remoteLayers`
and `localLayers` are what the respective builder's `GetLayers()` yields. -/
structure Env where
  initRes : Except GoError Unit
  validateClientApiVersionRes : Except GoError Unit
  loginRes : Except GoError Unit
  pushRes : Except GoError Unit
  isCollectBuildInfoRes : Except GoError Bool
  buildNameRes : Except GoError String
  buildNumberRes : Except GoError String
  serviceManagerRes : Except GoError Unit
  repoRes : Except GoError String
  imageIdRes : Except GoError String
  newRemoteBuilderRes : Except GoError Unit
  newLocalBuilderRes : Except GoError Unit
  saveGeneralDetailsRes : Except GoError Unit
  remoteBuildRes : String → Except GoError (Option Unit)
  localBuildRes : String → Except GoError (Option Unit)
  saveBuildInfoRes : Except GoError Unit
  remoteLayers : List ResultItem
  localLayers : List ResultItem
  saveTransferDetailsRes : Except GoError String

/-- Component normalisation of Go path.Clean: empty and dot components are
dropped, a dotdot component pops the previous component (at the root it is
dropped; in a relative path with nothing left to pop it is kept). -/
def cleanComps (rooted : Bool) : List String → List String → List String
  | acc, [] => acc.reverse
  | acc, c :: rest =>
    if c = "" ∨ c = "." then cleanComps rooted acc rest
    else if c = ".." then
      match acc with
      | [] => if rooted then cleanComps rooted [] rest else cleanComps rooted [".."] rest
      | top :: accRest =>
        if top = ".." then cleanComps rooted (".." :: top :: accRest) rest
        else cleanComps rooted accRest rest
    else cleanComps rooted (c :: acc) rest

/-- Splitting a character list on the slash separator (the components Go
path.Clean walks over). -/
def splitComps : List Char → List (List Char)
  | [] => [[]]
  | c :: rest =>
    let r := splitComps rest
    if c = '/' then [] :: r
    else
      match r with
      | [] => [[c]]
      | h :: t => (c :: h) :: t

/-- Joining strings with the slash separator. -/
def joinSlash : List String → String
  | [] => ""
  | h :: t => t.foldl (fun acc s => acc ++ "/" ++ s) h

/-- Go path.Clean: lexical shortest-equivalent normalisation of a path. -/
def pathClean (p : String) : String :=
  if p = "" then "."
  else
    let rooted := match p.data with | '/' :: _ => true | _ => false
    let comps := (splitComps p.data).map (fun cs => String.mk cs)
    let body := joinSlash (cleanComps rooted [] comps)
    if rooted then "/" ++ body
    else if body = "" then "." else body

/-- The element concatenation step of Go path.Join: empty elements before the
first non-empty one are skipped, later elements are joined with a slash. -/
def goJoin (elems : List String) : String :=
  elems.foldl
    (fun buf e => if buf = "" then e else buf ++ "/" ++ e) ""

/-- Go path.Join: returns the empty string when every element is empty,
otherwise joins the elements and Cleans the result. -/
def pathJoin (elems : List String) : String :=
  if elems.all (fun e => e == "") then ""
  else pathClean (goJoin elems)

/-- The sha256 extraction loop of `layersMapToFileTransferDetails`: sha256
starts empty and every property whose key is "sha256" overwrites it. -/
def layerSha256 (layer : ResultItem) : String :=
  layer.properties.foldl
    (fun sha256 property => if property.key = "sha256" then property.value else sha256)
    ""

/-- The FileTransferDetails built for one layer inside the loop of
`layersMapToFileTransferDetails`. -/
def layerToDetail (artifactoryUrl : String) (layer : ResultItem) : FileTransferDetails :=
  { targetPath := pathJoin [layer.repo, layer.path, layer.name]
    rtUrl := artifactoryUrl
    sha256 := layerSha256 layer }

/-- The details slice accumulated by the loop of
`layersMapToFileTransferDetails` (append in input order). -/
def layersToFileTransferDetails (artifactoryUrl : String) (layers : List ResultItem) :
    List FileTransferDetails :=
  layers.map (layerToDetail artifactoryUrl)

/-- PushCommand.layersMapToFileTransferDetails: build the details, save them
to a temp file, and set the command result (content reader of kind "files"
plus the count of details) on success. -/
def layersMapToFileTransferDetails (env : Env) (pc : PushCommand)
    (artifactoryUrl : String) (layers : List ResultItem) :
    Except GoError Unit × PushCommand × List Event :=
  let details := layersToFileTransferDetails artifactoryUrl layers
  match env.saveTransferDetailsRes with
  | .error e => (.error e, pc, [Event.saveTransferDetails])
  | .ok tempFile =>
      (.ok (),
       { pc with result := some { reader := some (tempFile, "files"),
                                  successCount := details.length } },
       [Event.saveTransferDetails])

/-- Outcome of a build-info collection gate: either fall through to the
detailed-summary gate, or return from `Run` with the given result. -/
inductive GateOutcome where
  | proceed
  | finished (r : Except GoError Unit)
deriving DecidableEq, Repr

/-- The `toCollect` block of the digest path (lines 135-149): save general
details, Build the module, return a descriptive error when the module is nil,
then SaveBuildInfo with a wrapped error on failure. -/
def digestCollectGate (env : Env) (pc : PushCommand) : GateOutcome × List Event :=
  match env.saveGeneralDetailsRes with
  | .error e => (.finished (.error e), [Event.saveBuildGeneralDetails])
  | .ok _ =>
    match env.remoteBuildRes pc.buildModule with
    | .error e =>
        (.finished (.error e),
         [Event.saveBuildGeneralDetails, Event.remoteBuild pc.buildModule])
    | .ok none =>
        (.finished (.error "failed to create build info module: module is nil"),
         [Event.saveBuildGeneralDetails, Event.remoteBuild pc.buildModule])
    | .ok (some _) =>
      match env.saveBuildInfoRes with
      | .error e =>
          (.finished (.error ("failed to save build info: " ++ e)),
           [Event.saveBuildGeneralDetails, Event.remoteBuild pc.buildModule,
            Event.saveBuildInfo])
      | .ok _ =>
          (.proceed,
           [Event.saveBuildGeneralDetails, Event.remoteBuild pc.buildModule,
            Event.saveBuildInfo])

/-- The `toCollect` block of the tag path (lines 169-180): save general
details, Build the module; the Go code returns `err` when the error is
non-nil OR the module is nil, so a nil module with a nil error returns from
`Run` with a nil error.  SaveBuildInfo errors are returned unwrapped. -/
def tagCollectGate (env : Env) (pc : PushCommand) : GateOutcome × List Event :=
  match env.saveGeneralDetailsRes with
  | .error e => (.finished (.error e), [Event.saveBuildGeneralDetails])
  | .ok _ =>
    match env.localBuildRes pc.buildModule with
    | .error e =>
        (.finished (.error e),
         [Event.saveBuildGeneralDetails, Event.localBuild pc.buildModule])
    | .ok none =>
        (.finished (.ok ()),
         [Event.saveBuildGeneralDetails, Event.localBuild pc.buildModule])
    | .ok (some _) =>
      match env.saveBuildInfoRes with
      | .error e =>
          (.finished (.error e),
           [Event.saveBuildGeneralDetails, Event.localBuild pc.buildModule,
            Event.saveBuildInfo])
      | .ok _ =>
          (.proceed,
           [Event.saveBuildGeneralDetails, Event.localBuild pc.buildModule,
            Event.saveBuildInfo])

/-- The SHA-validation branch of `Run` (lines 120-161): query the image
digest from the engine, construct the RemoteAgentBuildInfoBuilder with it,
run the collection gate when `toCollect`, and on `detailedSummary` build once
more (empty module name, error wrapped) only when collection did not run,
then write the transfer manifest from the remote builder's layers. -/
def runDigestPath (env : Env) (pc : PushCommand) (toCollect : Bool) :
    Except GoError Unit × PushCommand × List Event :=
  match env.imageIdRes with
  | .error e => (.error e, pc, [Event.engineIdQuery])
  | .ok imageSha256 =>
    match env.newRemoteBuilderRes with
    | .error e =>
        (.error e, pc, [Event.engineIdQuery, Event.newRemoteBuilder imageSha256])
    | .ok _ =>
      let pre := [Event.engineIdQuery, Event.newRemoteBuilder imageSha256]
      match (if toCollect then digestCollectGate env pc else (.proceed, [])) with
      | (.finished r, evs) => (r, pc, pre ++ evs)
      | (.proceed, evs) =>
        if pc.detailedSummary then
          if !toCollect then
            match env.remoteBuildRes "" with
            | .error e =>
                (.error ("failed to build summary info: " ++ e), pc,
                 pre ++ evs ++ [Event.remoteBuild ""])
            | .ok _ =>
              let step := layersMapToFileTransferDetails env pc
                pc.serverDetails.artifactoryUrl env.remoteLayers
              (step.1, step.2.1, pre ++ evs ++ [Event.remoteBuild ""] ++ step.2.2)
          else
            let step := layersMapToFileTransferDetails env pc
              pc.serverDetails.artifactoryUrl env.remoteLayers
            (step.1, step.2.1, pre ++ evs ++ step.2.2)
        else
          (.ok (), pc, pre ++ evs)

/-- The standard (tag-based) branch of `Run` (lines 163-195): construct the
LocalAgentBuildInfoBuilder, run the collection gate when `toCollect`, and on
`detailedSummary` enable skip-tagging and build once more (empty module name)
only when collection did not run, then write the transfer manifest from the
local builder's layers. -/
def runTagPath (env : Env) (pc : PushCommand) (toCollect : Bool) :
    Except GoError Unit × PushCommand × List Event :=
  match env.newLocalBuilderRes with
  | .error e => (.error e, pc, [Event.newLocalBuilder])
  | .ok _ =>
    let pre := [Event.newLocalBuilder]
    match (if toCollect then tagCollectGate env pc else (.proceed, [])) with
    | (.finished r, evs) => (r, pc, pre ++ evs)
    | (.proceed, evs) =>
      if pc.detailedSummary then
        if !toCollect then
          match env.localBuildRes "" with
          | .error e =>
              (.error e, pc,
               pre ++ evs ++ [Event.setSkipTaggingLayers true, Event.localBuild ""])
          | .ok _ =>
            let step := layersMapToFileTransferDetails env pc
              pc.serverDetails.artifactoryUrl env.localLayers
            (step.1, step.2.1,
             pre ++ evs ++ [Event.setSkipTaggingLayers true, Event.localBuild ""]
               ++ step.2.2)
        else
          let step := layersMapToFileTransferDetails env pc
            pc.serverDetails.artifactoryUrl env.localLayers
          (step.1, step.2.1, pre ++ evs ++ step.2.2)
      else
        (.ok (), pc, pre ++ evs)

/-- Strategy selection of `Run`: SHA validation picks the digest path,
otherwise the tag path. -/
def runGates (env : Env) (pc : PushCommand) (toCollect : Bool) :
    Except GoError Unit × PushCommand × List Event :=
  if pc.validateSha then runDigestPath env pc toCollect
  else runTagPath env pc toCollect

/-- PushCommand.Run (lines 70-196): init, API-version check for the docker
client, server details (always `pc.serverDetails` here), login, engine push,
flag evaluation with trivial success when neither gate is requested, build
name/number, service manager, repo, then the selected strategy path. -/
def Run (env : Env) (pc : PushCommand) :
    Except GoError Unit × PushCommand × List Event :=
  match env.initRes with
  | .error e => (.error e, pc, [])
  | .ok _ =>
    match (if pc.containerManagerType = ContainerManagerType.dockerClient
           then env.validateClientApiVersionRes else .ok ()) with
    | .error e => (.error e, pc, [])
    | .ok _ =>
      match env.loginRes with
      | .error e => (.error e, pc, [Event.login])
      | .ok _ =>
        match env.pushRes with
        | .error e => (.error e, pc, [Event.login, Event.enginePush])
        | .ok _ =>
          match env.isCollectBuildInfoRes with
          | .error e => (.error e, pc, [Event.login, Event.enginePush])
          | .ok toCollect =>
            if !toCollect && !pc.detailedSummary then
              (.ok (), pc, [Event.login, Event.enginePush])
            else
              match env.buildNameRes with
              | .error e => (.error e, pc, [Event.login, Event.enginePush])
              | .ok _ =>
                match env.buildNumberRes with
                | .error e => (.error e, pc, [Event.login, Event.enginePush])
                | .ok _ =>
                  match env.serviceManagerRes with
                  | .error e => (.error e, pc, [Event.login, Event.enginePush])
                  | .ok _ =>
                    match env.repoRes with
                    | .error e => (.error e, pc, [Event.login, Event.enginePush])
                    | .ok _ =>
                      let step := runGates env pc toCollect
                      (step.1, step.2.1,
                       Event.login :: Event.enginePush :: step.2.2)

/-- Successes reported by a command: a command that never set a result
reports zero successes. -/
def PushCommand.successCount (pc : PushCommand) : Nat :=
  match pc.result with
  | none => 0
  | some r => r.successCount

/-- Sample environment in which every external call succeeds: builds return
a module, layer queries return one layer, the temp file is "tmp". -/
def envOk : Env :=
  { initRes := .ok (), validateClientApiVersionRes := .ok (), loginRes := .ok (),
    pushRes := .ok (), isCollectBuildInfoRes := .ok true,
    buildNameRes := .ok "bn", buildNumberRes := .ok "1",
    serviceManagerRes := .ok (), repoRes := .ok "repo",
    imageIdRes := .ok "imgsha", newRemoteBuilderRes := .ok (),
    newLocalBuilderRes := .ok (), saveGeneralDetailsRes := .ok (),
    remoteBuildRes := fun _ => .ok (some ()), localBuildRes := fun _ => .ok (some ()),
    saveBuildInfoRes := .ok (),
    remoteLayers := [{ repo := "r", path := "p", name := "n",
                       properties := [{ key := "sha256", value := "abc" }] }],
    localLayers := [{ repo := "r", path := "p", name := "n",
                      properties := [{ key := "sha256", value := "abc" }] }],
    saveTransferDetailsRes := .ok "tmp" }

/-- Sample command state: tag strategy, no gates requested, no result yet. -/
def pc0 : PushCommand :=
  { containerManagerType := .dockerClient, image := "img", threads := 3,
    detailedSummary := false, validateSha := false, buildModule := "m",
    serverDetails := { artifactoryUrl := "https://x" }, result := none }

/-- Folding the sha256-extraction step over properties none of which has key
"sha256" leaves the accumulator unchanged. -/
lemma sha256_foldl_const (l : List Property) (acc : String)
    (h : ∀ p ∈ l, p.key ≠ "sha256") :
    l.foldl (fun sha256 property =>
        if property.key = "sha256" then property.value else sha256) acc = acc := by
  induction l generalizing acc with
  | nil => rfl
  | cons p ps ih =>
    simp only [List.foldl_cons]
    rw [if_neg (h p (by simp))]
    exact ih acc fun q hq => h q (by simp [hq])

/-- The transfer-manifest writer always records exactly the temp-file save. -/
lemma layersMap_trace (env : Env) (pc : PushCommand) (url : String)
    (layers : List ResultItem) :
    (layersMapToFileTransferDetails env pc url layers).2.2
      = [Event.saveTransferDetails] := by
  unfold layersMapToFileTransferDetails
  cases env.saveTransferDetailsRes <;> rfl

/-- Counting with a predicate that is false on every member gives zero. -/
lemma countP_zero_of_mem_false {l : List Event} {p : Event → Bool}
    (h : ∀ ev ∈ l, p ev = false) : l.countP p = 0 :=
  List.countP_eq_zero.mpr (fun a ha => by simp [h a ha])

/-- Digest-path collection gate: its trace holds no tag-strategy event and
constructs no builder. -/
lemma digestGate_events (env : Env) (pc : PushCommand) :
    ∀ ev ∈ (digestCollectGate env pc).2,
      ev.isTagStrategy = false ∧ ev.isNewBuilder = false := by
  have hall : ((digestCollectGate env pc).2).all
      (fun ev => !ev.isTagStrategy && !ev.isNewBuilder) = true := by
    unfold digestCollectGate
    repeat' split
    all_goals simp [Event.isTagStrategy, Event.isNewBuilder]
  intro ev hev
  have h2 := List.all_eq_true.mp hall ev hev
  simp only [Bool.and_eq_true, Bool.not_eq_true'] at h2
  exact h2

/-- Tag-path collection gate: its trace holds no digest-strategy event,
constructs no builder, and never toggles skip-tagging. -/
lemma tagGate_events (env : Env) (pc : PushCommand) :
    ∀ ev ∈ (tagCollectGate env pc).2,
      ev.isDigestStrategy = false ∧ ev.isNewBuilder = false
        ∧ ev.isSetSkip = false := by
  have hall : ((tagCollectGate env pc).2).all
      (fun ev => !ev.isDigestStrategy && !ev.isNewBuilder && !ev.isSetSkip)
        = true := by
    unfold tagCollectGate
    repeat' split
    all_goals simp [Event.isDigestStrategy, Event.isNewBuilder, Event.isSetSkip]
  intro ev hev
  have h2 := List.all_eq_true.mp hall ev hev
  simp only [Bool.and_eq_true, Bool.not_eq_true'] at h2
  exact ⟨h2.1.1, h2.1.2, h2.2⟩

/-- Shape of every digest-path trace: either the digest query failed, or the
trace is the query, one builder construction carrying the queried digest,
the collection-gate events, and a tail of summary events. -/
lemma runDigestPath_shape (env : Env) (pc : PushCommand) (tc : Bool) :
    (runDigestPath env pc tc).2.2 = [Event.engineIdQuery]
      ∨ ∃ sha evs rest,
          env.imageIdRes = Except.ok sha
          ∧ (runDigestPath env pc tc).2.2
              = Event.engineIdQuery :: Event.newRemoteBuilder sha :: (evs ++ rest)
          ∧ (∀ ev ∈ evs, ev.isTagStrategy = false ∧ ev.isNewBuilder = false)
          ∧ (∀ ev ∈ rest,
              ev = Event.remoteBuild "" ∨ ev = Event.saveTransferDetails) := by
  unfold runDigestPath
  rcases hi : env.imageIdRes with e | sha
  · exact Or.inl (by simp)
  refine Or.inr ?_
  rcases hn : env.newRemoteBuilderRes with e | u
  · exact ⟨sha, [], [], rfl, by simp, by simp, by simp⟩
  cases tc with
  | false =>
    cases hds : pc.detailedSummary with
    | false => exact ⟨sha, [], [], rfl, by simp [hds], by simp, by simp⟩
    | true =>
      rcases hb : env.remoteBuildRes "" with e | m
      · exact ⟨sha, [], [Event.remoteBuild ""], rfl, by simp [hds, hb], by simp,
          by simp⟩
      · exact ⟨sha, [], [Event.remoteBuild "", Event.saveTransferDetails], rfl,
          by simp [hds, hb, layersMap_trace], by simp, by simp⟩
  | true =>
    rcases hg : digestCollectGate env pc with ⟨o, evs⟩
    have hge := digestGate_events env pc
    rw [hg] at hge
    cases o with
    | finished r => exact ⟨sha, evs, [], rfl, by simp [hg], hge, by simp⟩
    | proceed =>
      cases hds : pc.detailedSummary with
      | false => exact ⟨sha, evs, [], rfl, by simp [hg, hds], hge, by simp⟩
      | true =>
        exact ⟨sha, evs, [Event.saveTransferDetails], rfl,
          by simp [hg, hds, layersMap_trace], hge, by simp⟩

/-- Shape of every tag-path trace: builder construction failed, or the trace
is one builder construction, the collection-gate events, and a tail that is
either just the manifest save or — only when collection was off — the
skip-tagging toggle, the summary Build, and then the manifest save. -/
lemma runTagPath_shape (env : Env) (pc : PushCommand) (tc : Bool) :
    (runTagPath env pc tc).2.2 = [Event.newLocalBuilder]
      ∨ ∃ evs rest,
          (runTagPath env pc tc).2.2 = Event.newLocalBuilder :: (evs ++ rest)
          ∧ (∀ ev ∈ evs, ev.isDigestStrategy = false ∧ ev.isNewBuilder = false
              ∧ ev.isSetSkip = false)
          ∧ ((∀ ev ∈ rest, ev = Event.saveTransferDetails)
              ∨ (tc = false
                 ∧ ∃ r2, rest = Event.setSkipTaggingLayers true
                      :: Event.localBuild "" :: r2
                   ∧ ∀ ev ∈ r2, ev = Event.saveTransferDetails)) := by
  unfold runTagPath
  rcases hn : env.newLocalBuilderRes with e | u
  · exact Or.inl (by simp)
  refine Or.inr ?_
  cases tc with
  | false =>
    cases hds : pc.detailedSummary with
    | false => exact ⟨[], [], by simp [hds], by simp, Or.inl (by simp)⟩
    | true =>
      rcases hb : env.localBuildRes "" with e | m
      · exact ⟨[], [Event.setSkipTaggingLayers true, Event.localBuild ""],
          by simp [hds, hb], by simp,
          Or.inr ⟨rfl, [], by simp, by simp⟩⟩
      · exact ⟨[], [Event.setSkipTaggingLayers true, Event.localBuild "",
            Event.saveTransferDetails],
          by simp [hds, hb, layersMap_trace], by simp,
          Or.inr ⟨rfl, [Event.saveTransferDetails], by simp, by simp⟩⟩
  | true =>
    rcases hg : tagCollectGate env pc with ⟨o, evs⟩
    have hge := tagGate_events env pc
    rw [hg] at hge
    cases o with
    | finished r => exact ⟨evs, [], by simp [hg], hge, Or.inl (by simp)⟩
    | proceed =>
      cases hds : pc.detailedSummary with
      | false => exact ⟨evs, [], by simp [hg, hds], hge, Or.inl (by simp)⟩
      | true =>
        exact ⟨evs, [Event.saveTransferDetails],
          by simp [hg, hds, layersMap_trace], hge, Or.inl (by simp)⟩

/-- Trace split of `Run`: a preamble failure or the trivial early return
leaves at most login and push in the trace; otherwise the trace is login,
push, then the selected strategy path's trace. -/
lemma run_trace_split (env : Env) (pc : PushCommand) :
    (Run env pc).2.2 = []
      ∨ (Run env pc).2.2 = [Event.login]
      ∨ (Run env pc).2.2 = [Event.login, Event.enginePush]
      ∨ ∃ tc, env.isCollectBuildInfoRes = Except.ok tc
          ∧ (Run env pc).2.2
              = Event.login :: Event.enginePush :: (runGates env pc tc).2.2 := by
  rcases h1 : env.initRes with e | u
  · exact Or.inl (by simp [Run, h1])
  rcases h2 : (if pc.containerManagerType = ContainerManagerType.dockerClient
      then env.validateClientApiVersionRes else Except.ok ()) with e | u
  · exact Or.inl (by simp [Run, h1, h2])
  rcases h3 : env.loginRes with e | u
  · exact Or.inr (Or.inl (by simp [Run, h1, h2, h3]))
  rcases h4 : env.pushRes with e | u
  · exact Or.inr (Or.inr (Or.inl (by simp [Run, h1, h2, h3, h4])))
  rcases h5 : env.isCollectBuildInfoRes with e | tc
  · exact Or.inr (Or.inr (Or.inl (by simp [Run, h1, h2, h3, h4, h5])))
  by_cases h6 : (!tc && !pc.detailedSummary) = true
  · exact Or.inr (Or.inr (Or.inl (by simp [Run, h1, h2, h3, h4, h5, h6])))
  rcases h7 : env.buildNameRes with e | bn
  · exact Or.inr (Or.inr (Or.inl (by simp [Run, h1, h2, h3, h4, h5, h6, h7])))
  rcases h8 : env.buildNumberRes with e | bno
  · exact Or.inr (Or.inr (Or.inl
      (by simp [Run, h1, h2, h3, h4, h5, h6, h7, h8])))
  rcases h9 : env.serviceManagerRes with e | u
  · exact Or.inr (Or.inr (Or.inl
      (by simp [Run, h1, h2, h3, h4, h5, h6, h7, h8, h9])))
  rcases h10 : env.repoRes with e | rp
  · exact Or.inr (Or.inr (Or.inl
      (by simp [Run, h1, h2, h3, h4, h5, h6, h7, h8, h9, h10])))
  exact Or.inr (Or.inr (Or.inr ⟨tc, rfl,
    by simp [Run, h1, h2, h3, h4, h5, h6, h7, h8, h9, h10]⟩))

/-- C3: for the single resolved layer (repo "r", path "p", name "n",
property sha256 = "abc") and repository base URL "https://x", the
transfer-manifest builder produces exactly one TransferDetail, namely
(target path "r/p/n", repository URL "https://x", sha256 "abc"). -/
theorem claim_C3_single_layer_detail :
    layersToFileTransferDetails "https://x"
      [{ repo := "r", path := "p", name := "n",
         properties := [{ key := "sha256", value := "abc" }] }]
      = [{ targetPath := "r/p/n", rtUrl := "https://x", sha256 := "abc" }] := by
  decide

/-- C4: a resolved layer with no property keyed "sha256" still yields a
TransferDetail, its sha256 is the empty string, and the manifest build of a
batch containing it succeeds (given the temp-file save succeeds). -/
theorem claim_C4_missing_sha256_is_empty (env : Env) (pc : PushCommand)
    (url : String) (layers : List ResultItem) (layer : ResultItem) (t : String)
    (_hmem : layer ∈ layers)
    (hno : ∀ p ∈ layer.properties, p.key ≠ "sha256")
    (hsave : env.saveTransferDetailsRes = .ok t) :
    (layersMapToFileTransferDetails env pc url layers).1 = .ok ()
      ∧ (layerToDetail url layer).sha256 = "" := by
  constructor
  · unfold layersMapToFileTransferDetails
    rw [hsave]
  · exact sha256_foldl_const layer.properties "" hno

/-- C4 witness: a concrete layer carrying only a "foo" property. -/
theorem claim_C4_witness :
    (layersMapToFileTransferDetails envOk pc0 "https://x"
        [{ repo := "r", path := "p", name := "n",
           properties := [{ key := "foo", value := "bar" }] }]).1 = .ok ()
      ∧ (layerToDetail "https://x"
          { repo := "r", path := "p", name := "n",
            properties := [{ key := "foo", value := "bar" }] }).sha256 = "" :=
  claim_C4_missing_sha256_is_empty envOk pc0 "https://x"
    [{ repo := "r", path := "p", name := "n",
       properties := [{ key := "foo", value := "bar" }] }]
    { repo := "r", path := "p", name := "n",
      properties := [{ key := "foo", value := "bar" }] }
    "tmp" (by decide) (by decide) (by decide)

/-- C5: the transfer-manifest builder succeeds (given the temp-file save
succeeds), produces exactly one TransferDetail per input layer with output
order equal to input order, and the resulting result's success count equals
the number of input layers. -/
theorem claim_C5_one_detail_per_layer (env : Env) (pc : PushCommand)
    (url : String) (layers : List ResultItem) (t : String)
    (hsave : env.saveTransferDetailsRes = .ok t) :
    (layersMapToFileTransferDetails env pc url layers).1 = .ok ()
      ∧ (layersToFileTransferDetails url layers).length = layers.length
      ∧ (∀ i : Nat, (layersToFileTransferDetails url layers)[i]?
            = (layers[i]?).map (layerToDetail url))
      ∧ ((layersMapToFileTransferDetails env pc url layers).2.1).successCount
          = layers.length := by
  refine ⟨?_, ?_, ?_, ?_⟩
  · unfold layersMapToFileTransferDetails
    rw [hsave]
  · simp [layersToFileTransferDetails]
  · intro i
    simp [layersToFileTransferDetails]
  · unfold layersMapToFileTransferDetails
    rw [hsave]
    simp [PushCommand.successCount, layersToFileTransferDetails]

/-- C5 witness: a concrete two-layer batch, checked at both indices. -/
theorem claim_C5_witness :
    (layersMapToFileTransferDetails envOk pc0 "https://x"
        [{ repo := "r", path := "p", name := "n",
           properties := [{ key := "sha256", value := "abc" }] },
         { repo := "r2", path := "p2", name := "n2", properties := [] }]).1 = .ok ()
      ∧ ((layersMapToFileTransferDetails envOk pc0 "https://x"
          [{ repo := "r", path := "p", name := "n",
             properties := [{ key := "sha256", value := "abc" }] },
           { repo := "r2", path := "p2", name := "n2",
             properties := [] }]).2.1).successCount = 2 := by
  have h := claim_C5_one_detail_per_layer envOk pc0 "https://x"
    [{ repo := "r", path := "p", name := "n",
       properties := [{ key := "sha256", value := "abc" }] },
     { repo := "r2", path := "p2", name := "n2", properties := [] }]
    "tmp" (by decide)
  exact ⟨h.1, h.2.2.2⟩

/-- C10: when a layer's property list holds several properties keyed
"sha256", the derived TransferDetail carries the value of the last one —
later occurrences overwrite earlier ones. -/
theorem claim_C10_last_sha256_wins (url r pa n v : String)
    (l1 l2 : List Property)
    (hafter : ∀ p ∈ l2, p.key ≠ "sha256") :
    (layerToDetail url
        { repo := r, path := pa, name := n,
          properties := l1 ++ { key := "sha256", value := v } :: l2 }).sha256 = v := by
  unfold layerToDetail layerSha256
  simp only [List.foldl_append, List.foldl_cons, if_pos rfl]
  exact sha256_foldl_const l2 v hafter

/-- C10 witness: two sha256 properties; the later value "second" wins. -/
theorem claim_C10_witness :
    (layerToDetail "https://x"
        { repo := "r", path := "p", name := "n",
          properties := [{ key := "sha256", value := "first" },
                         { key := "sha256", value := "second" }] }).sha256
      = "second" :=
  claim_C10_last_sha256_wins "https://x" "r" "p" "n" "second"
    [{ key := "sha256", value := "first" }] [] (by decide)

/-- C2: with build-info collection and detailed summary both off and a
successful push, Run succeeds immediately after login and push — the trace
holds no repository query, no builder, and no persistence call — and the
command's result stays empty, reporting zero successes. -/
theorem claim_C2_both_flags_off_trivial (env : Env) (pc : PushCommand)
    (h1 : env.initRes = .ok ()) (h2 : env.validateClientApiVersionRes = .ok ())
    (h3 : env.loginRes = .ok ()) (h4 : env.pushRes = .ok ())
    (h5 : env.isCollectBuildInfoRes = .ok false)
    (h6 : pc.detailedSummary = false) (h7 : pc.result = none) :
    Run env pc = (.ok (), pc, [Event.login, Event.enginePush])
      ∧ (Run env pc).2.1.successCount = 0 := by
  have hrun : Run env pc = (.ok (), pc, [Event.login, Event.enginePush]) := by
    simp [Run, h1, h2, h3, h4, h5, h6]
  exact ⟨hrun, by rw [hrun]; simp [PushCommand.successCount, h7]⟩

/-- C2 witness: the all-success environment with collection reported off. -/
theorem claim_C2_witness :
    Run { envOk with isCollectBuildInfoRes := .ok false } pc0
        = (.ok (), pc0, [Event.login, Event.enginePush])
      ∧ (Run { envOk with isCollectBuildInfoRes := .ok false } pc0).2.1.successCount
          = 0 :=
  claim_C2_both_flags_off_trivial { envOk with isCollectBuildInfoRes := .ok false }
    pc0 rfl rfl rfl rfl rfl rfl rfl

/-- C9: when the engine push fails — or, on the digest path, the engine
digest query fails — Run returns that error with the command state
unchanged, and the trace holds nothing beyond login, push and the digest
query itself: no builder is constructed, no Build runs, nothing is
persisted, no manifest is written. -/
theorem claim_C9_engine_failure_aborts (env : Env) (pc : PushCommand)
    (e : GoError) (tc : Bool) (bn bno rp : String)
    (h1 : env.initRes = .ok ()) (h2 : env.validateClientApiVersionRes = .ok ())
    (h3 : env.loginRes = .ok ())
    (heng : env.pushRes = .error e
      ∨ (env.pushRes = .ok () ∧ env.isCollectBuildInfoRes = .ok tc
         ∧ (tc || pc.detailedSummary) = true
         ∧ env.buildNameRes = .ok bn ∧ env.buildNumberRes = .ok bno
         ∧ env.serviceManagerRes = .ok () ∧ env.repoRes = .ok rp
         ∧ pc.validateSha = true ∧ env.imageIdRes = .error e)) :
    (Run env pc).1 = .error e
      ∧ (Run env pc).2.1 = pc
      ∧ ∀ ev ∈ (Run env pc).2.2,
          ev = Event.login ∨ ev = Event.enginePush ∨ ev = Event.engineIdQuery := by
  rcases heng with h4 | ⟨h4, h5, h6, h7, h8, h9, h10, h11, h12⟩
  · have hrun : Run env pc = (.error e, pc, [Event.login, Event.enginePush]) := by
      simp [Run, h1, h2, h3, h4]
    rw [hrun]
    refine ⟨rfl, rfl, ?_⟩
    intro ev hev
    simp at hev
    tauto
  · have h6' : (!tc && !pc.detailedSummary) = false := by
      rw [← Bool.not_or, h6]
      rfl
    have hrun : Run env pc
        = (.error e, pc, [Event.login, Event.enginePush, Event.engineIdQuery]) := by
      simp [Run, runGates, runDigestPath, h1, h2, h3, h4, h5, h6', h7, h8, h9,
        h10, h11, h12]
    rw [hrun]
    refine ⟨rfl, rfl, ?_⟩
    intro ev hev
    simp at hev
    tauto

/-- C9 witness: the engine push itself fails with "boom". -/
theorem claim_C9_witness :
    (Run { envOk with pushRes := .error "boom" } pc0).1 = .error "boom"
      ∧ (Run { envOk with pushRes := .error "boom" } pc0).2.1 = pc0
      ∧ ∀ ev ∈ (Run { envOk with pushRes := .error "boom" } pc0).2.2,
          ev = Event.login ∨ ev = Event.enginePush ∨ ev = Event.engineIdQuery :=
  claim_C9_engine_failure_aborts { envOk with pushRes := .error "boom" } pc0
    "boom" false "bn" "1" "repo" rfl rfl rfl (Or.inl rfl)

/-- C1 counterexample: in the tag-based strategy, when Build returns a nil
module together with a nil error, Run returns a nil error (success), not the
descriptive module-nil failure the claim asserts for either strategy;
SaveBuildInfo is still skipped. -/
theorem claim_C1_counterexample :
    (Run { envOk with localBuildRes := fun _ => Except.ok none } pc0).1
        = Except.ok ()
      ∧ Event.saveBuildInfo
          ∉ (Run { envOk with localBuildRes := fun _ => Except.ok none } pc0).2.2 := by
  decide

/-- C1 (amended): when the selected builder's Build returns a nil module
with a nil error during build-info collection, the digest-based path returns
the descriptive module-nil error while the tag-based path returns a nil
error; in both strategies SaveBuildInfo is never called. -/
theorem claim_C1_amended_nil_module (env : Env) (pc : PushCommand)
    (bn bno rp sha : String)
    (h1 : env.initRes = .ok ()) (h2 : env.validateClientApiVersionRes = .ok ())
    (h3 : env.loginRes = .ok ()) (h4 : env.pushRes = .ok ())
    (h5 : env.isCollectBuildInfoRes = .ok true)
    (h6 : env.buildNameRes = .ok bn) (h7 : env.buildNumberRes = .ok bno)
    (h8 : env.serviceManagerRes = .ok ()) (h9 : env.repoRes = .ok rp)
    (h10 : env.imageIdRes = .ok sha) (h11 : env.newRemoteBuilderRes = .ok ())
    (h12 : env.newLocalBuilderRes = .ok ())
    (h13 : env.saveGeneralDetailsRes = .ok ())
    (h14 : env.remoteBuildRes pc.buildModule = .ok none)
    (h15 : env.localBuildRes pc.buildModule = .ok none) :
    (Run env pc).1
        = (if pc.validateSha then
             Except.error "failed to create build info module: module is nil"
           else Except.ok ())
      ∧ Event.saveBuildInfo ∉ (Run env pc).2.2 := by
  cases hv : pc.validateSha with
  | false =>
    have hrun : Run env pc
        = (.ok (), pc,
           [Event.login, Event.enginePush, Event.newLocalBuilder,
            Event.saveBuildGeneralDetails, Event.localBuild pc.buildModule]) := by
      simp [Run, runGates, runTagPath, tagCollectGate, h1, h2, h3, h4, h5, h6,
        h7, h8, h9, h12, h13, h15, hv]
    rw [hrun]
    refine ⟨by simp, by simp⟩
  | true =>
    have hrun : Run env pc
        = (.error "failed to create build info module: module is nil", pc,
           [Event.login, Event.enginePush, Event.engineIdQuery,
            Event.newRemoteBuilder sha, Event.saveBuildGeneralDetails,
            Event.remoteBuild pc.buildModule]) := by
      simp [Run, runGates, runDigestPath, digestCollectGate, h1, h2, h3, h4,
        h5, h6, h7, h8, h9, h10, h11, h13, h14, hv]
    rw [hrun]
    refine ⟨by simp, by simp⟩

/-- C1 witness: the digest strategy at a concrete nil-module environment. -/
theorem claim_C1_witness :
    (Run { envOk with remoteBuildRes := fun _ => Except.ok none,
                      localBuildRes := fun _ => Except.ok none }
        { pc0 with validateSha := true }).1
        = Except.error "failed to create build info module: module is nil"
      ∧ Event.saveBuildInfo
          ∉ (Run { envOk with remoteBuildRes := fun _ => Except.ok none,
                              localBuildRes := fun _ => Except.ok none }
              { pc0 with validateSha := true }).2.2 := by
  have h := claim_C1_amended_nil_module
    { envOk with remoteBuildRes := fun _ => Except.ok none,
                 localBuildRes := fun _ => Except.ok none }
    { pc0 with validateSha := true }
    "bn" "1" "repo" "imgsha" rfl rfl rfl rfl rfl rfl rfl rfl rfl rfl rfl rfl
    rfl rfl
  simpa using h

/-- After a successful general-details save, the digest collection gate runs
the remote Build exactly once, whatever Build and SaveBuildInfo return. -/
lemma digestGate_build_count (env : Env) (pc : PushCommand)
    (h : env.saveGeneralDetailsRes = Except.ok ()) :
    ((digestCollectGate env pc).2).countP Event.isBuild = 1 := by
  unfold digestCollectGate
  rw [h]
  rcases hb : env.remoteBuildRes pc.buildModule with e | m
  · simp [Event.isBuild]
  · rcases m with _ | m
    · simp [Event.isBuild]
    · rcases hs : env.saveBuildInfoRes with e | u <;> simp [Event.isBuild]

/-- After a successful general-details save, the tag collection gate runs
the local Build exactly once, whatever Build and SaveBuildInfo return. -/
lemma tagGate_build_count (env : Env) (pc : PushCommand)
    (h : env.saveGeneralDetailsRes = Except.ok ()) :
    ((tagCollectGate env pc).2).countP Event.isBuild = 1 := by
  unfold tagCollectGate
  rw [h]
  rcases hb : env.localBuildRes pc.buildModule with e | m
  · simp [Event.isBuild]
  · rcases m with _ | m
    · simp [Event.isBuild]
    · rcases hs : env.saveBuildInfoRes with e | u <;> simp [Event.isBuild]

/-- C7: with build-info collection on and detailed summary on, once the run
reaches the gates the selected builder's Build is invoked exactly once — the
summary gate reuses the collection gate's resolution and never triggers a
second pass, in either strategy. -/
theorem claim_C7_single_resolution (env : Env) (pc : PushCommand)
    (bn bno rp sha : String)
    (h1 : env.initRes = .ok ()) (h2 : env.validateClientApiVersionRes = .ok ())
    (h3 : env.loginRes = .ok ()) (h4 : env.pushRes = .ok ())
    (h5 : env.isCollectBuildInfoRes = .ok true)
    (hds : pc.detailedSummary = true)
    (h6 : env.buildNameRes = .ok bn) (h7 : env.buildNumberRes = .ok bno)
    (h8 : env.serviceManagerRes = .ok ()) (h9 : env.repoRes = .ok rp)
    (h10 : env.imageIdRes = .ok sha) (h11 : env.newRemoteBuilderRes = .ok ())
    (h12 : env.newLocalBuilderRes = .ok ())
    (h13 : env.saveGeneralDetailsRes = .ok ()) :
    ((Run env pc).2.2).countP Event.isBuild = 1 := by
  have hrun : (Run env pc).2.2
      = Event.login :: Event.enginePush :: (runGates env pc true).2.2 := by
    simp [Run, h1, h2, h3, h4, h5, h6, h7, h8, h9, hds]
  rw [hrun]
  have hgates : ((runGates env pc true).2.2).countP Event.isBuild = 1 := by
    unfold runGates
    cases hv : pc.validateSha with
    | true =>
      have hc := digestGate_build_count env pc h13
      rcases hg : digestCollectGate env pc with ⟨o, evs⟩
      rw [hg] at hc
      unfold runDigestPath
      rw [h10, h11]
      cases o with
      | proceed =>
        simp [hg, hds, layersMap_trace, List.countP_append, List.countP_cons,
          Event.isBuild, hc]
      | finished r =>
        simp [hg, List.countP_append, List.countP_cons, Event.isBuild, hc]
    | false =>
      have hc := tagGate_build_count env pc h13
      rcases hg : tagCollectGate env pc with ⟨o, evs⟩
      rw [hg] at hc
      unfold runTagPath
      rw [h12]
      cases o with
      | proceed =>
        simp [hg, hds, layersMap_trace, List.countP_append, List.countP_cons,
          Event.isBuild, hc]
      | finished r =>
        simp [hg, List.countP_append, List.countP_cons, Event.isBuild, hc]
  simp [List.countP_cons, Event.isBuild, hgates]

/-- C7 witness: the all-success environment with both gates requested, on
the tag strategy. -/
theorem claim_C7_witness :
    ((Run envOk { pc0 with detailedSummary := true }).2.2).countP Event.isBuild
      = 1 :=
  claim_C7_single_resolution envOk { pc0 with detailedSummary := true }
    "bn" "1" "repo" "imgsha" rfl rfl rfl rfl rfl rfl rfl rfl rfl rfl rfl rfl
    rfl rfl

/-- C6: skip-tagging is enabled — set to true immediately before the
summary Build — exactly in the summary-only tag-path configuration: the
digest path never toggles it, a run with build-info collection on never
toggles it, and in the tag path with collection off and detailed summary on
the trace holds the toggle directly followed by the empty-module Build. -/
theorem claim_C6_skip_tagging (env : Env) (pc : PushCommand) (bn bno rp : String) :
    (pc.validateSha = true →
       ∀ b, Event.setSkipTaggingLayers b ∉ (Run env pc).2.2)
      ∧ (env.isCollectBuildInfoRes = Except.ok true →
         ∀ b, Event.setSkipTaggingLayers b ∉ (Run env pc).2.2)
      ∧ (env.isCollectBuildInfoRes = Except.ok false → pc.detailedSummary = true →
         pc.validateSha = false →
         env.initRes = Except.ok () →
         env.validateClientApiVersionRes = Except.ok () →
         env.loginRes = Except.ok () → env.pushRes = Except.ok () →
         env.buildNameRes = Except.ok bn → env.buildNumberRes = Except.ok bno →
         env.serviceManagerRes = Except.ok () → env.repoRes = Except.ok rp →
         env.newLocalBuilderRes = Except.ok () →
         ∃ l r, (Run env pc).2.2
             = l ++ Event.setSkipTaggingLayers true :: Event.localBuild "" :: r) := by
  refine ⟨?_, ?_, ?_⟩
  · intro hv b hmem
    rcases run_trace_split env pc with h | h | h | ⟨tc, hc, h⟩ <;> rw [h] at hmem
    · simp at hmem
    · simp at hmem
    · simp at hmem
    · simp only [List.mem_cons] at hmem
      rcases hmem with hmem | hmem | hmem
      · exact absurd hmem (by simp)
      · exact absurd hmem (by simp)
      · rw [show runGates env pc tc = runDigestPath env pc tc by
            simp [runGates, hv]] at hmem
        rcases runDigestPath_shape env pc tc with hs | ⟨sha, evs, rest, hi, hs, hevs, hrest⟩
        · rw [hs] at hmem
          simp at hmem
        · rw [hs] at hmem
          simp only [List.mem_cons, List.mem_append] at hmem
          rcases hmem with hmem | hmem | hmem | hmem
          · exact absurd hmem (by simp)
          · exact absurd hmem (by simp)
          · have := (hevs _ hmem).1
            simp [Event.isTagStrategy] at this
          · rcases hrest _ hmem with hmem | hmem <;> simp at hmem
  · intro hcoll b hmem
    rcases run_trace_split env pc with h | h | h | ⟨tc, hc, h⟩ <;> rw [h] at hmem
    · simp at hmem
    · simp at hmem
    · simp at hmem
    · have htc : tc = true := by
        rw [hc] at hcoll
        simpa using hcoll
      subst htc
      simp only [List.mem_cons] at hmem
      rcases hmem with hmem | hmem | hmem
      · exact absurd hmem (by simp)
      · exact absurd hmem (by simp)
      · cases hv : pc.validateSha with
        | true =>
          rw [show runGates env pc true = runDigestPath env pc true by
              simp [runGates, hv]] at hmem
          rcases runDigestPath_shape env pc true with hs | ⟨sha, evs, rest, hi, hs, hevs, hrest⟩
          · rw [hs] at hmem
            simp at hmem
          · rw [hs] at hmem
            simp only [List.mem_cons, List.mem_append] at hmem
            rcases hmem with hmem | hmem | hmem | hmem
            · exact absurd hmem (by simp)
            · exact absurd hmem (by simp)
            · have := (hevs _ hmem).1
              simp [Event.isTagStrategy] at this
            · rcases hrest _ hmem with hmem | hmem <;> simp at hmem
        | false =>
          rw [show runGates env pc true = runTagPath env pc true by
              simp [runGates, hv]] at hmem
          rcases runTagPath_shape env pc true with hs | ⟨evs, rest, hs, hevs, hrest⟩
          · rw [hs] at hmem
            simp at hmem
          · rw [hs] at hmem
            simp only [List.mem_cons, List.mem_append] at hmem
            rcases hmem with hmem | hmem | hmem
            · exact absurd hmem (by simp)
            · have := (hevs _ hmem).2.2
              simp [Event.isSetSkip] at this
            · rcases hrest with hall | ⟨htc, _⟩
              · have := hall _ hmem
                simp at this
              · exact absurd htc (by simp)
  · intro hc hds hv h1 h2 h3 h4 h6 h7 h8 h9 h12
    rcases hb : env.localBuildRes "" with e | m
    · refine ⟨[Event.login, Event.enginePush, Event.newLocalBuilder], [], ?_⟩
      simp [Run, runGates, runTagPath, h1, h2, h3, h4, hc, hds, hv, h6, h7, h8,
        h9, h12, hb]
    · refine ⟨[Event.login, Event.enginePush, Event.newLocalBuilder],
        [Event.saveTransferDetails], ?_⟩
      simp [Run, runGates, runTagPath, h1, h2, h3, h4, hc, hds, hv, h6, h7, h8,
        h9, h12, hb, layersMap_trace]

/-- C6 witness: the summary-only tag-path configuration at the sample
environment, showing the toggle followed by the summary Build in the trace. -/
theorem claim_C6_witness :
    ∃ l r, (Run { envOk with isCollectBuildInfoRes := .ok false }
          { pc0 with detailedSummary := true }).2.2
        = l ++ Event.setSkipTaggingLayers true :: Event.localBuild "" :: r :=
  (claim_C6_skip_tagging { envOk with isCollectBuildInfoRes := .ok false }
      { pc0 with detailedSummary := true } "bn" "1" "repo").2.2
    rfl rfl rfl rfl rfl rfl rfl rfl rfl rfl rfl rfl

/-- C8: each run selects exactly one resolver strategy, chosen solely by the
SHA-validation flag: with it set the trace holds no tag-strategy event and
every builder construction carries the engine-reported image digest; with it
unset the trace holds no digest-strategy event; in all cases at most one
builder is constructed. -/
theorem claim_C8_one_strategy (env : Env) (pc : PushCommand) :
    (pc.validateSha = true →
       ((Run env pc).2.2).countP Event.isTagStrategy = 0
         ∧ ∀ s, Event.newRemoteBuilder s ∈ (Run env pc).2.2 →
             env.imageIdRes = Except.ok s)
      ∧ (pc.validateSha = false →
         ((Run env pc).2.2).countP Event.isDigestStrategy = 0)
      ∧ ((Run env pc).2.2).countP Event.isNewBuilder ≤ 1 := by
  rcases run_trace_split env pc with h | h | h | ⟨tc, hc, h⟩ <;> rw [h]
  · simp [Event.isTagStrategy, Event.isDigestStrategy, Event.isNewBuilder]
  · simp [Event.isTagStrategy, Event.isDigestStrategy, Event.isNewBuilder]
  · simp [Event.isTagStrategy, Event.isDigestStrategy, Event.isNewBuilder]
  · refine ⟨?_, ?_, ?_⟩
    · intro hv
      rw [show runGates env pc tc = runDigestPath env pc tc by simp [runGates, hv]]
      rcases runDigestPath_shape env pc tc with hs | ⟨sha, evs, rest, hi, hs, hevs, hrest⟩
      · rw [hs]
        constructor
        · simp [Event.isTagStrategy]
        · intro s hmem
          simp at hmem
      · rw [hs]
        constructor
        · have hz1 : evs.countP Event.isTagStrategy = 0 :=
            countP_zero_of_mem_false (fun ev hev => (hevs ev hev).1)
          have hz2 : rest.countP Event.isTagStrategy = 0 :=
            countP_zero_of_mem_false (fun ev hev => by
              rcases hrest ev hev with rfl | rfl <;> rfl)
          simp [List.countP_cons, List.countP_append, Event.isTagStrategy,
            hz1, hz2]
        · intro s hmem
          simp only [List.mem_cons, List.mem_append] at hmem
          rcases hmem with hmem | hmem | hmem | hmem | hmem | hmem
          · exact absurd hmem (by simp)
          · exact absurd hmem (by simp)
          · exact absurd hmem (by simp)
          · injection hmem with hss
            subst hss
            exact hi
          · have hb := (hevs _ hmem).2
            simp [Event.isNewBuilder] at hb
          · rcases hrest _ hmem with hmem | hmem <;> simp at hmem
    · intro hv
      rw [show runGates env pc tc = runTagPath env pc tc by simp [runGates, hv]]
      rcases runTagPath_shape env pc tc with hs | ⟨evs, rest, hs, hevs, hrest⟩
      · rw [hs]
        simp [Event.isDigestStrategy]
      · rw [hs]
        have hz1 : evs.countP Event.isDigestStrategy = 0 :=
          countP_zero_of_mem_false (fun ev hev => (hevs ev hev).1)
        have hz2 : rest.countP Event.isDigestStrategy = 0 := by
          apply countP_zero_of_mem_false
          intro ev hev
          rcases hrest with hall | ⟨_, r2, hrr, hr2⟩
          · rw [hall ev hev]
            rfl
          · rw [hrr] at hev
            simp only [List.mem_cons] at hev
            rcases hev with rfl | rfl | hev
            · rfl
            · rfl
            · rw [hr2 ev hev]
              rfl
        simp [List.countP_cons, List.countP_append, Event.isDigestStrategy,
          hz1, hz2]
    · cases hv : pc.validateSha with
      | true =>
        rw [show runGates env pc tc = runDigestPath env pc tc by
            simp [runGates, hv]]
        rcases runDigestPath_shape env pc tc with hs | ⟨sha, evs, rest, hi, hs, hevs, hrest⟩ <;>
          rw [hs]
        · simp [Event.isNewBuilder]
        · have hz1 : evs.countP Event.isNewBuilder = 0 :=
            countP_zero_of_mem_false (fun ev hev => (hevs ev hev).2)
          have hz2 : rest.countP Event.isNewBuilder = 0 :=
            countP_zero_of_mem_false (fun ev hev => by
              rcases hrest ev hev with rfl | rfl <;> rfl)
          simp [List.countP_cons, List.countP_append, Event.isNewBuilder,
            hz1, hz2]
      | false =>
        rw [show runGates env pc tc = runTagPath env pc tc by simp [runGates, hv]]
        rcases runTagPath_shape env pc tc with hs | ⟨evs, rest, hs, hevs, hrest⟩ <;>
          rw [hs]
        · simp [Event.isNewBuilder]
        · have hz1 : evs.countP Event.isNewBuilder = 0 :=
            countP_zero_of_mem_false (fun ev hev => (hevs ev hev).2.1)
          have hz2 : rest.countP Event.isNewBuilder = 0 := by
            apply countP_zero_of_mem_false
            intro ev hev
            rcases hrest with hall | ⟨_, r2, hrr, hr2⟩
            · rw [hall ev hev]
              rfl
            · rw [hrr] at hev
              simp only [List.mem_cons] at hev
              rcases hev with rfl | rfl | hev
              · rfl
              · rfl
              · rw [hr2 ev hev]
                rfl
          simp [List.countP_cons, List.countP_append, Event.isNewBuilder,
            hz1, hz2]

/-- C8 witness: on the digest strategy at the sample environment, no
tag-strategy event occurs and one builder is constructed. -/
theorem claim_C8_witness :
    ((Run envOk { pc0 with validateSha := true }).2.2).countP
        Event.isTagStrategy = 0
      ∧ ((Run envOk { pc0 with validateSha := true }).2.2).countP
          Event.isNewBuilder ≤ 1 := by
  have h := claim_C8_one_strategy envOk { pc0 with validateSha := true }
  exact ⟨(h.1 rfl).1, h.2.2⟩

end ContainerPush